import Mathlib

/-!
Verification of `build/builder/CheckDependencies.py` (EventGhost build helper).

The Python module is shallowly embedded below:
* `CompareVersion` — the dot-separated version comparator (Python 2
  semantics: `int(filter(lambda c: c in digits, part))` raises `ValueError`
  on a segment containing no digit character, modelled by `Option`).
* the per-kind dependency checkers (`ModuleDependency.Check`, …) as pure
  functions over an explicit environment describing what the real code
  reads from the interpreter, the file system and the registry;
* the check phase of `CheckDependencies` and the install dispatcher
  `InstallDependency`.

Strings are handled through their character lists so that every definition
reduces in the kernel.
-/

namespace CheckDeps

/-- Python `str.split(".")` on a character list: splits at every `'.'`,
never collapses separators, and yields `[[]]` on the empty string. -/
def splitDots : List Char → List (List Char)
  | [] => [[]]
  | c :: cs =>
    if c = '.' then [] :: splitDots cs
    else
      match splitDots cs with
      | s :: ss => (c :: s) :: ss
      | [] => [[c]]

/-- Python 2 `filter(lambda c: c in digits, part)`: keep the digit
characters of a segment, in order. -/
def filterDigits (l : List Char) : List Char := l.filter Char.isDigit

/-- Decimal value of a (nonempty, all-digit) character list, as computed by
Python `int` on such a string. -/
def digitsVal (ds : List Char) : Nat := ds.foldl (fun n c => 10 * n + (c.toNat - 48)) 0

/-- Numeric value of a segment, `int(filter(lambda c: c in digits, part))`:
`none` models the `ValueError` Python 2 raises when the filtered string is
empty. -/
def parseSeg (s : List Char) : Option Nat :=
  match filterDigits s with
  | [] => none
  | ds => some (digitsVal ds)

/-- The loop of `CompareVersion` over the two segment lists, wanted parts
first (the Python loop runs `for i in range(numParts)` over the common
prefix; reaching the end of either list ends the loop with result 0).
`none` models the `ValueError` escaping when a reached segment has no
digit character. -/
def compareLoop : List (List Char) → List (List Char) → Option Int
  | wantedPart :: wantedParts, actualPart :: actualParts =>
    match parseSeg wantedPart, parseSeg actualPart with
    | some w, some a =>
      if w > a then some (-1)
      else if w < a then some 1
      else compareLoop wantedParts actualParts
    | _, _ => none
  | _, _ => some 0

/-- Segment list of a version string (`version.split(".")`). -/
def segs (v : String) : List (List Char) := splitDots v.data

/-- The function `CompareVersion(actualVersion, wantedVersion)` from
`CheckDependencies.py` lines 54–67. -/
def CompareVersion (actualVersion wantedVersion : String) : Option Int :=
  compareLoop (segs wantedVersion) (segs actualVersion)

/-- The version string with every non-digit character removed from each
dot-separated segment (the transformation `CompareVersion` applies
segment-wise before comparing numerically). -/
def joinDots : List (List Char) → List Char
  | [] => []
  | [s] => s
  | s :: ss => s ++ '.' :: joinDots ss

def stripVersion (v : String) : String :=
  String.mk (joinDots ((splitDots v.data).map filterDigits))

/-! ## Data model: descriptors, check outcomes, environment -/

/-- The kind of a dependency descriptor: which subclass of
`DependencyBase` it instantiates, i.e. which `Check` body runs for it. -/
inductive DepKind where
  | module
  | pywin32
  | stackless
  | innoSetup
  | htmlHelp
  | dll
deriving DecidableEq, Repr

/-- The build context handed to `CheckDependencies(buildSetup)`.  Only the
`args.make_env` flag is data the modelled fragment branches on; the two
directory paths the real object carries are abstracted into `DllEnv`
(they only determine which files the DLL checker reads). -/
structure BuildSetup where
  makeEnv : Bool := false
deriving DecidableEq, Repr

/-- A dependency descriptor (`DependencyBase` and its subclasses).  The
class-level defaults are `attr = None`, `exact = False`, `module = None`,
`package = None`, `url = None`; `name`/`version` have no default in the
source (they are set by each subclass or constructor call), so `version`
defaults to `""` here only to keep the structure total — no modelled code
path reads it before it is set.  `buildSetup` is the back-reference the
driver assigns before calling `Check`. -/
structure Dependency where
  kind : DepKind
  name : String
  version : String := ""
  attr : Option String := none
  exact : Bool := false
  module : Option String := none
  package : Option String := none
  url : Option String := none
  buildSetup : Option BuildSetup := none
deriving DecidableEq, Repr

/-- Outcome of one `Check()` call.  `fatal` stands for any exception other
than `MissingDependency`/`WrongVersion` escaping `Check` (e.g. the
`Exception("Can't get version information")` of `ModuleDependency.Check`,
or the `ValueError`/`AttributeError` the DLL checker can hit); the driver
does not catch those. -/
inductive CheckResult where
  | satisfied
  | missingDependency
  | wrongVersion
  | fatal (msg : String)
deriving DecidableEq, Repr

/-- Python truthiness of an optional string attribute (`None` and `""` are
falsy). -/
def pyTruthy (o : Option String) : Bool := o.getD "" ≠ ""

/-- A version marker found on an imported module: either already a string,
or an arbitrary iterable of ints that the checker dot-joins
(`".".join(str(x) for x in version)`). -/
inductive PyVersion where
  | str (s : String)
  | tup (xs : List Nat)
deriving DecidableEq, Repr

/-- An imported Python module, reduced to what `ModuleDependency.Check`
reads from it: attribute lookup for version markers (`none` models
`hasattr` returning `False`). -/
structure PyModule where
  getattr : String → Option PyVersion

def versionToString : PyVersion → String
  | .str s => s
  | .tup xs => String.intercalate "." (xs.map toString)

/-- What `DllDependency.Check` reads from the outside world: the regex
match on `manifest.template` (`none` = no match, so `match.group` raises
`AttributeError`), and the `GetFileVersion` tuple of each DLL found by the
WinSxS glob. -/
structure DllEnv where
  manifestInfo : Option (String × String × String) := none
  sxsFiles : List (List Nat) := []
deriving DecidableEq, Repr

/-- Everything the six `Check` bodies observe about the machine. -/
structure Env where
  importModule : String → Option PyModule
  pywin32VersionFile : Option String := none
  stacklessImportOk : Bool := false
  pyVersionInfo : Nat × Nat × Nat := (2, 7, 9)
  innoCompilerFound : Bool := false
  htmlHelpCompilerFound : Bool := false
  dll : DllEnv := {}

/-! ## The checkers -/

/-- The `if self.attr and hasattr … elif … else` cascade of
`ModuleDependency.Check` that locates a version marker; `none` models
falling through to `raise Exception("Can't get version information")`. -/
def findVersionAttr (dep : Dependency) (m : PyModule) : Option PyVersion :=
  let byDefaults :=
    match m.getattr "__version__" with
    | some v => some v
    | none =>
      match m.getattr "VERSION" with
      | some v => some v
      | none => m.getattr "version"
  if pyTruthy dep.attr then
    match m.getattr (dep.attr.getD "") with
    | some v => some v
    | none => byDefaults
  else byDefaults

/-- Checker `ModuleDependency.Check` (lines 89–109): `imported = none`
models `__import__` raising `ImportError`. -/
def ModuleDependency.Check (dep : Dependency) (imported : Option PyModule) : CheckResult :=
  match imported with
  | none => .missingDependency
  | some m =>
    match findVersionAttr dep m with
    | none => .fatal "Can't get version information"
    | some v =>
      match CompareVersion (versionToString v) dep.version with
      | none => .fatal "ValueError"
      | some r => if r < 0 then .wrongVersion else .satisfied

/-- Python whitespace as stripped by `str.strip()`. -/
def isPySpace (c : Char) : Bool :=
  c = ' ' ∨ c = '\t' ∨ c = '\n' ∨ c = '\r' ∨ c = '\x0b' ∨ c = '\x0c'

def stripChars (l : List Char) : List Char :=
  ((l.dropWhile isPySpace).reverse.dropWhile isPySpace).reverse

/-- Reading one line: `file.readline()` yields the text up to the first
newline (the trailing `"\n"` itself is removed by the `strip()` that
follows). -/
def readFirstLine (l : List Char) : List Char := l.takeWhile (fun c => c ≠ '\n')

/-- Checker `PyWin32Dependency.Check` (lines 118–127): `fileContent = none`
models `open` raising `IOError` on a missing `pywin32.version.txt`. -/
def PyWin32Dependency.Check (dep : Dependency) (fileContent : Option String) : CheckResult :=
  match fileContent with
  | none => .missingDependency
  | some s =>
    let version : String := String.mk (stripChars (readFirstLine s.data))
    match CompareVersion version dep.version with
    | none => .fatal "ValueError"
    | some r => if r < 0 then .wrongVersion else .satisfied

/-- The interpreter version string `"%d.%d.%d" % sys.version_info[:3]`. -/
def formatVersionInfo (v : Nat × Nat × Nat) : String :=
  toString v.1 ++ "." ++ toString v.2.1 ++ "." ++ toString v.2.2

/-- Checker `StacklessDependency.Check` (lines 136–142): the bare `except`
around `import stackless` turns any import failure into
`MissingDependency`. -/
def StacklessDependency.Check (dep : Dependency) (importOk : Bool)
    (verInfo : Nat × Nat × Nat) : CheckResult :=
  if importOk then
    match CompareVersion (formatVersionInfo verInfo) dep.version with
    | none => .fatal "ValueError"
    | some r => if r < 0 then .wrongVersion else .satisfied
  else .missingDependency

/-- Checker `InnoSetupDependency.Check` (lines 153–155): only tests
truthiness of `GetInnoCompilerPath()`. -/
def InnoSetupDependency.Check (compilerFound : Bool) : CheckResult :=
  if compilerFound then .satisfied else .missingDependency

/-- Checker `HtmlHelpWorkshopDependency.Check` (lines 169–171). -/
def HtmlHelpWorkshopDependency.Check (compilerFound : Bool) : CheckResult :=
  if compilerFound then .satisfied else .missingDependency

/-- Python `int(x)` on one segment of the manifest version: surrounding
whitespace is tolerated, anything else non-digit is a `ValueError`
(signs do not occur in manifest version fields). -/
def pyIntChars (l : List Char) : Option Nat :=
  let t := stripChars l
  if t ≠ [] ∧ t.all Char.isDigit then some (digitsVal t) else none

/-- The wanted tuple `tuple(int(x) for x in self.version.split("."))`. -/
def parseVerTuple (s : String) : Option (List Nat) :=
  (splitDots s.data).mapM pyIntChars

/-- Checker `DllDependency.Check` (lines 176–209).  Returns the descriptor as
mutated by the call together with the outcome: the source sets
`self.exact = True` before and `self.version = match.group("ver")` after
the regex lookup, so a failed regex (`manifestInfo = none`) still leaves
`exact` mutated.  The file copies on the success path touch the build
tree, not the descriptor. -/
def DllDependency.Check (dep : Dependency) (env : DllEnv) : Dependency × CheckResult :=
  match env.manifestInfo with
  | none => ({ dep with exact := true }, .fatal "AttributeError")
  | some info =>
    let dep := { dep with exact := true, version := info.2.1 }
    match parseVerTuple dep.version with
    | none => (dep, .fatal "ValueError")
    | some wantedVersion =>
      if env.sxsFiles.isEmpty then (dep, .missingDependency)
      else if env.sxsFiles.all (fun fv => fv = wantedVersion) then (dep, .satisfied)
      else (dep, .wrongVersion)

/-- Dynamic dispatch of `dep.Check()`: which body runs, fed with the slice
of the environment the real body reads.  Only the DLL checker returns a
mutated descriptor. -/
def runCheck (env : Env) (dep : Dependency) : Dependency × CheckResult :=
  match dep.kind with
  | .module => (dep, ModuleDependency.Check dep (env.importModule (dep.module.getD "")))
  | .pywin32 => (dep, PyWin32Dependency.Check dep env.pywin32VersionFile)
  | .stackless => (dep, StacklessDependency.Check dep env.stacklessImportOk env.pyVersionInfo)
  | .innoSetup => (dep, InnoSetupDependency.Check env.innoCompilerFound)
  | .htmlHelp => (dep, HtmlHelpWorkshopDependency.Check env.htmlHelpCompilerFound)
  | .dll => DllDependency.Check dep env.dll

/-! ## Driver check phase and install dispatcher -/

/-- Does this outcome land the descriptor in `failedDeps`?  Exactly the
two exception types caught by
`except (WrongVersion, MissingDependency)`. -/
def isFailureResult : CheckResult → Bool
  | .missingDependency => true
  | .wrongVersion => true
  | _ => false

def isFatalResult : CheckResult → Bool
  | .fatal _ => true
  | _ => false

/-- Phase 1 of `CheckDependencies` (lines 279–287): iterate the dependency
list in order, assign `dep.buildSetup = buildSetup`, run `dep.Check()`,
and append the (possibly Check-mutated) descriptor to `failedDeps` when it
raised `WrongVersion` or `MissingDependency`.  Any other exception
propagates out of the driver, modelled by `Except.error`. -/
def CheckDependenciesPhase1 (env : Env) (buildSetup : BuildSetup) :
    List Dependency → Except String (List Dependency)
  | [] => .ok []
  | dep :: rest =>
    let dep := { dep with buildSetup := some buildSetup }
    match runCheck env dep with
    | (_, .fatal msg) => .error msg
    | (dep', r) =>
      match CheckDependenciesPhase1 env buildSetup rest with
      | .error e => .error e
      | .ok failed => .ok (if isFailureResult r then dep' :: failed else failed)

/-- Modelled from the spec: the failure list phase 1 should produce —
exactly the descriptors whose checker raised, in declaration order
(each as mutated by its own `Check` call, with the back-reference
assigned). -/
def specFailedDeps (env : Env) (buildSetup : BuildSetup) (deps : List Dependency) :
    List Dependency :=
  ((deps.map (fun d => runCheck env { d with buildSetup := some buildSetup })).filter
    (fun p => isFailureResult p.2)).map Prod.fst

/-- The install mechanism `InstallDependency` selects (the subprocess it
would launch); `pipInstall target` stands for `Pip("install", target)`,
`chocoInstall pkg args` for `Choco("install", pkg, *args)`. -/
inductive InstallAction where
  | installStackless (version : String)
  | pipInstall (target : String)
  | chocoInstall (package : String) (extraArgs : List String)
  | missingInstallMethod
deriving DecidableEq, Repr

/-- Python `url.endswith(".whl")`. -/
def pyEndsWith (s suffix : String) : Bool := List.isSuffixOf suffix.data s.data

/-- Dispatcher `InstallDependency(dep)` (lines 404–420).  `arch32` is
`platform.architecture()[0] == "32bit"`.  `missingInstallMethod` models
`raise MissingInstallMethod`. -/
def InstallDependency (arch32 : Bool) (dep : Dependency) : InstallAction :=
  if dep.name = "Stackless Python" then
    .installStackless dep.version
  else if pyTruthy dep.url = false ∧ pyTruthy dep.package = false then
    .pipInstall (dep.name ++ (if dep.exact then "==" ++ dep.version else ""))
  else if pyTruthy dep.url = true ∧ pyEndsWith (dep.url.getD "") ".whl" = true then
    .pipInstall (dep.url.getD "")
  else if pyTruthy dep.package = true then
    .chocoInstall (dep.package.getD "")
      (if dep.exact then
        ("--version=" ++ dep.version) :: (if arch32 then ["--x86"] else [])
      else [])
  else .missingInstallMethod

/-! ## The declared dependency list (lines 212–276) -/

def agithubDep : Dependency :=
  { kind := .module, name := "agithub", module := some "agithub", version := "2.0",
    url := some "https://eventghost.github.io/dist/dependencies/agithub-2.0-cp27-none-any.whl" }

def comtypesDep : Dependency :=
  { kind := .module, name := "comtypes", module := some "comtypes", version := "1.1.2" }

def ctypeslibDep : Dependency :=
  { kind := .module, name := "ctypeslib", module := some "ctypeslib", version := "0.5.6",
    url := some "https://eventghost.github.io/dist/dependencies/ctypeslib-0.5.6-cp27-none-any.whl" }

def futureDep : Dependency :=
  { kind := .module, name := "future", module := some "future", version := "0.15.2" }

def htmlHelpWorkshopDep : Dependency :=
  { kind := .htmlHelp, name := "HTML Help Workshop", version := "1.32",
    package := some "html-help-workshop",
    url := some "https://download.microsoft.com/download/0/A/9/0A939EF6-E31C-430F-A3DF-DFAE7960D564/htmlhelp.exe" }

def innoSetupDep : Dependency :=
  { kind := .innoSetup, name := "Inno Setup", version := "5.5.8",
    package := some "innosetup",
    url := some "http://www.innosetup.com/download.php/is-unicode.exe" }

def vcredistDep : Dependency :=
  { kind := .dll, name := "Microsoft Visual C++ Redistributable",
    package := some "vcredist2008",
    url := some "https://download.microsoft.com/download/1/1/1/1116b75a-9ec3-481a-a3c8-1777b5381140/vcredist_x86.exe" }

def pillowDep : Dependency :=
  { kind := .module, name := "Pillow", module := some "PIL",
    attr := some "PILLOW_VERSION", version := "3.1.1" }

def py2exeDep : Dependency :=
  { kind := .module, name := "py2exe_py2", module := some "py2exe", version := "0.6.9" }

def pyCryptoDep : Dependency :=
  { kind := .module, name := "PyCrypto", module := some "Crypto", version := "2.6.1",
    url := some "https://eventghost.github.io/dist/dependencies/pycrypto-2.6.1-cp27-none-win32.whl" }

def pyWin32Dep : Dependency :=
  { kind := .pywin32, name := "pywin32", version := "220",
    url := some "https://eventghost.github.io/dist/dependencies/pywin32-220-cp27-none-win32.whl" }

def sphinxDep : Dependency :=
  { kind := .module, name := "Sphinx", module := some "sphinx", version := "1.3.5" }

def stacklessDep : Dependency :=
  { kind := .stackless, name := "Stackless Python", version := "2.7.9",
    url := some "http://www.stackless.com/" }

def wxPythonDep : Dependency :=
  { kind := .module, name := "wxPython", module := some "wx", version := "3.0.2.0",
    url := some "https://eventghost.github.io/dist/dependencies/wxPython-3.0.2.0-cp27-none-win32.whl" }

def DEPENDENCIES : List Dependency :=
  [agithubDep, comtypesDep, ctypeslibDep, futureDep, htmlHelpWorkshopDep,
   innoSetupDep, vcredistDep, pillowDep, py2exeDep, pyCryptoDep,
   pyWin32Dep, sphinxDep, stacklessDep, wxPythonDep]

/-! ## A concrete machine state, used by the witnesses -/

def pyModuleExample : PyModule :=
  { getattr := fun a => if a = "__version__" then some (.str "2.0") else none }

def dllEnvExample : DllEnv :=
  { manifestInfo := some ("Microsoft.VC90.CRT", "9.0.21022.8", "x86"), sxsFiles := [] }

def envExample : Env :=
  { importModule := fun _ => some pyModuleExample,
    pywin32VersionFile := some "220\n",
    stacklessImportOk := true,
    pyVersionInfo := (2, 7, 9),
    innoCompilerFound := false,
    htmlHelpCompilerFound := true,
    dll := dllEnvExample }

/-! ## Lemmas about the comparator loop -/

lemma compareLoop_nil_left (as : List (List Char)) : compareLoop [] as = some 0 := by
  cases as <;> rfl

lemma compareLoop_nil_right (ws : List (List Char)) : compareLoop ws [] = some 0 := by
  cases ws <;> rfl

/-- If every compared pair of segments parses and the two sides agree
numerically, the loop falls through and returns 0. -/
lemma compareLoop_eq_zero (ws as : List (List Char))
    (h : ∀ p ∈ ws.zip as, parseSeg p.1 = parseSeg p.2 ∧ (parseSeg p.1).isSome = true) :
    compareLoop ws as = some 0 := by
  induction ws generalizing as with
  | nil => exact compareLoop_nil_left as
  | cons w ws ih =>
    cases as with
    | nil => exact compareLoop_nil_right _
    | cons a as =>
      obtain ⟨heq, hs⟩ := h (w, a) (by simp)
      obtain ⟨n, hn⟩ := Option.isSome_iff_exists.mp hs
      have ha : parseSeg a = some n := by rw [← heq]; exact hn
      simp only [compareLoop, hn, ha, gt_iff_lt, lt_irrefl, if_false]
      exact ih as (fun p hp => h p (List.mem_cons_of_mem _ hp))

/-- If every compared pair parses with wanted ≤ actual and some compared
pair is strictly smaller on the wanted side, the loop returns 1. -/
lemma compareLoop_eq_one (ws as : List (List Char))
    (hle : ∀ p ∈ ws.zip as, (parseSeg p.1).isSome = true ∧ (parseSeg p.2).isSome = true ∧
      (parseSeg p.1).getD 0 ≤ (parseSeg p.2).getD 0)
    (hex : ∃ p ∈ ws.zip as, (parseSeg p.1).getD 0 < (parseSeg p.2).getD 0) :
    compareLoop ws as = some 1 := by
  induction ws generalizing as with
  | nil => simp at hex
  | cons w ws ih =>
    cases as with
    | nil => simp at hex
    | cons a as =>
      obtain ⟨h1, h2, h3⟩ := hle (w, a) (by simp)
      obtain ⟨wn, hwn⟩ := Option.isSome_iff_exists.mp h1
      obtain ⟨an, han⟩ := Option.isSome_iff_exists.mp h2
      rw [hwn, han] at h3
      simp only [Option.getD_some] at h3
      have hngt : ¬ an < wn := not_lt.mpr h3
      simp only [compareLoop, hwn, han, gt_iff_lt, hngt, if_false]
      by_cases hlt : wn < an
      · rw [if_pos hlt]
      · rw [if_neg hlt]
        have heqn : wn = an := le_antisymm h3 (not_lt.mp hlt)
        apply ih
        · exact fun p hp => hle p (List.mem_cons_of_mem _ hp)
        · obtain ⟨p, hp, hplt⟩ := hex
          rcases List.mem_cons.mp hp with hph | hpt
          · exfalso
            rw [hph] at hplt
            simp only [hwn, han, Option.getD_some] at hplt
            omega
          · exact ⟨p, hpt, hplt⟩

/-- If the two segment lists agree (numerically, with successful parses)
on a common prefix and at the next position the wanted side is strictly
greater, the loop stops there with -1. -/
lemma compareLoop_first_gt (ws₁ : List (List Char)) (w : List Char)
    (ws₂ : List (List Char)) (as₁ : List (List Char)) (a : List Char)
    (as₂ : List (List Char))
    (hlen : ws₁.length = as₁.length)
    (hpre : ∀ p ∈ ws₁.zip as₁, parseSeg p.1 = parseSeg p.2 ∧ (parseSeg p.1).isSome = true)
    (hws : (parseSeg w).isSome = true) (has : (parseSeg a).isSome = true)
    (hgt : (parseSeg a).getD 0 < (parseSeg w).getD 0) :
    compareLoop (ws₁ ++ w :: ws₂) (as₁ ++ a :: as₂) = some (-1) := by
  induction ws₁ generalizing as₁ with
  | nil =>
    cases as₁ with
    | nil =>
      obtain ⟨wn, hwn⟩ := Option.isSome_iff_exists.mp hws
      obtain ⟨an, han⟩ := Option.isSome_iff_exists.mp has
      rw [hwn, han] at hgt
      simp only [Option.getD_some] at hgt
      simp only [List.nil_append, compareLoop, hwn, han, gt_iff_lt]
      rw [if_pos hgt]
    | cons _ _ => simp at hlen
  | cons w₁ ws₁ ih =>
    cases as₁ with
    | nil => simp at hlen
    | cons a₁ as₁ =>
      obtain ⟨heq, hs⟩ := hpre (w₁, a₁) (by simp)
      obtain ⟨n, hn⟩ := Option.isSome_iff_exists.mp hs
      have ha₁ : parseSeg a₁ = some n := by rw [← heq]; exact hn
      simp only [List.cons_append, compareLoop, hn, ha₁, gt_iff_lt, lt_irrefl, if_false]
      exact ih as₁ (by simpa using hlen) (fun p hp => hpre p (List.mem_cons_of_mem _ hp))

/-- Swapping the two segment lists negates the loop result, provided every
compared pair of segments parses. -/
lemma compareLoop_antisymm_aux (ws as : List (List Char))
    (h : ∀ p ∈ ws.zip as, (parseSeg p.1).isSome = true ∧ (parseSeg p.2).isSome = true) :
    ∃ r : Int, compareLoop ws as = some r ∧ compareLoop as ws = some (-r) := by
  induction ws generalizing as with
  | nil =>
    exact ⟨0, compareLoop_nil_left as, by rw [compareLoop_nil_right as]; norm_num⟩
  | cons w ws ih =>
    cases as with
    | nil =>
      exact ⟨0, compareLoop_nil_right _, by rw [compareLoop_nil_left _]; norm_num⟩
    | cons a as =>
      obtain ⟨h1, h2⟩ := h (w, a) (by simp)
      obtain ⟨wn, hwn⟩ := Option.isSome_iff_exists.mp h1
      obtain ⟨an, han⟩ := Option.isSome_iff_exists.mp h2
      by_cases hgt : an < wn
      · refine ⟨-1, ?_, ?_⟩
        · simp only [compareLoop, hwn, han, gt_iff_lt]
          rw [if_pos hgt]
        · simp only [compareLoop, hwn, han, gt_iff_lt]
          rw [if_neg (asymm hgt), if_pos hgt]
          norm_num
      · by_cases hlt : wn < an
        · refine ⟨1, ?_, ?_⟩
          · simp only [compareLoop, hwn, han, gt_iff_lt]
            rw [if_neg hgt, if_pos hlt]
          · simp only [compareLoop, hwn, han, gt_iff_lt]
            rw [if_pos hlt]
        · obtain ⟨r, hr1, hr2⟩ := ih as (fun p hp => h p (List.mem_cons_of_mem _ hp))
          refine ⟨r, ?_, ?_⟩
          · simp only [compareLoop, hwn, han, gt_iff_lt]
            rw [if_neg hgt, if_neg hlt]
            exact hr1
          · simp only [compareLoop, hwn, han, gt_iff_lt]
            rw [if_neg hlt, if_neg hgt]
            exact hr2

/-! ## Lemmas about segment splitting and digit filtering -/

lemma filterDigits_idem (s : List Char) : filterDigits (filterDigits s) = filterDigits s := by
  simp [filterDigits, List.filter_filter]

lemma parseSeg_filterDigits (s : List Char) : parseSeg (filterDigits s) = parseSeg s := by
  unfold parseSeg
  rw [filterDigits_idem]

lemma dot_not_mem_filterDigits (s : List Char) : '.' ∉ filterDigits s := by
  intro hmem
  have := List.of_mem_filter hmem
  simp at this

lemma splitDots_ne_nil (l : List Char) : splitDots l ≠ [] := by
  induction l with
  | nil => simp [splitDots]
  | cons c cs ih =>
    simp only [splitDots]
    split
    · simp
    · split
      · simp
      · simp

lemma splitDots_no_dot (s : List Char) (h : '.' ∉ s) : splitDots s = [s] := by
  induction s with
  | nil => rfl
  | cons c cs ih =>
    have hc : ¬ c = '.' := fun hc => h (hc ▸ List.mem_cons_self c cs)
    have hcs : '.' ∉ cs := fun hm => h (List.mem_cons_of_mem _ hm)
    simp only [splitDots, if_neg hc, ih hcs]

lemma splitDots_append_dot (s t : List Char) (h : '.' ∉ s) :
    splitDots (s ++ '.' :: t) = s :: splitDots t := by
  induction s with
  | nil => simp [splitDots]
  | cons c cs ih =>
    have hc : ¬ c = '.' := fun hc => h (hc ▸ List.mem_cons_self c cs)
    have hcs : '.' ∉ cs := fun hm => h (List.mem_cons_of_mem _ hm)
    simp only [List.cons_append, splitDots, if_neg hc, List.append_eq, ih hcs]

/-- Splitting undoes joining, for a nonempty list of dot-free segments. -/
lemma splitDots_joinDots (l : List (List Char)) (hl : l ≠ [])
    (h : ∀ s ∈ l, '.' ∉ s) : splitDots (joinDots l) = l := by
  induction l with
  | nil => exact absurd rfl hl
  | cons s ss ih =>
    cases ss with
    | nil =>
      simp only [joinDots]
      exact splitDots_no_dot s (h s (List.mem_cons_self _ _))
    | cons s₂ ss₂ =>
      have hj : joinDots (s :: s₂ :: ss₂) = s ++ '.' :: joinDots (s₂ :: ss₂) := rfl
      rw [hj, splitDots_append_dot s _ (h s (List.mem_cons_self _ _))]
      rw [ih (by simp) (fun x hx => h x (List.mem_cons_of_mem _ hx))]

/-- Filtering each segment to its digits does not change the loop result
(the loop parses each segment through that very filter). -/
lemma compareLoop_map_filterDigits (ws as : List (List Char)) :
    compareLoop (ws.map filterDigits) (as.map filterDigits) = compareLoop ws as := by
  induction ws generalizing as with
  | nil => rw [List.map_nil, compareLoop_nil_left, compareLoop_nil_left]
  | cons w ws ih =>
    cases as with
    | nil => rw [List.map_nil, compareLoop_nil_right, compareLoop_nil_right]
    | cons a as =>
      simp only [List.map_cons, compareLoop, parseSeg_filterDigits]
      rw [ih as]

/-- The segments of a stripped version string are the digit-filtered
segments of the original. -/
lemma segs_stripVersion (v : String) :
    segs (stripVersion v) = (segs v).map filterDigits := by
  unfold segs stripVersion
  show splitDots (joinDots ((splitDots v.data).map filterDigits)) = _
  apply splitDots_joinDots
  · intro hnil
    exact splitDots_ne_nil v.data (List.map_eq_nil_iff.mp hnil)
  · intro s hs
    obtain ⟨t, _, ht⟩ := List.mem_map.mp hs
    rw [← ht]
    exact dot_not_mem_filterDigits t

/-- Stripping the non-digit characters out of every segment of both
version strings leaves the comparison result unchanged. -/
lemma compareVersion_stripVersion (actualVersion wantedVersion : String) :
    CompareVersion (stripVersion actualVersion) (stripVersion wantedVersion) =
      CompareVersion actualVersion wantedVersion := by
  unfold CompareVersion
  rw [segs_stripVersion, segs_stripVersion, compareLoop_map_filterDigits]

/-! ## Claims about the version comparator -/

/-- Claim C1: for every pair of dot-separated version strings
(wanted, actual) in which each compared segment contains at least one
digit character, if every compared segment of wanted is numerically ≤ the
corresponding segment of actual, then `CompareVersion(actual, wanted)`
returns a non-negative result: 1 when some compared wanted segment is
strictly below the actual one, 0 when all compared segments match. -/
theorem compareVersion_wanted_le_nonneg (actualVersion wantedVersion : String)
    (h : ∀ p ∈ (segs wantedVersion).zip (segs actualVersion),
      (parseSeg p.1).isSome = true ∧ (parseSeg p.2).isSome = true ∧
      (parseSeg p.1).getD 0 ≤ (parseSeg p.2).getD 0) :
    (CompareVersion actualVersion wantedVersion = some 0 ∨
      CompareVersion actualVersion wantedVersion = some 1)
    ∧ ((∃ p ∈ (segs wantedVersion).zip (segs actualVersion),
        (parseSeg p.1).getD 0 < (parseSeg p.2).getD 0) →
      CompareVersion actualVersion wantedVersion = some 1)
    ∧ ((∀ p ∈ (segs wantedVersion).zip (segs actualVersion),
        parseSeg p.1 = parseSeg p.2) →
      CompareVersion actualVersion wantedVersion = some 0) := by
  have hone : (∃ p ∈ (segs wantedVersion).zip (segs actualVersion),
      (parseSeg p.1).getD 0 < (parseSeg p.2).getD 0) →
      CompareVersion actualVersion wantedVersion = some 1 :=
    fun hex => compareLoop_eq_one _ _ h hex
  have hzero : (∀ p ∈ (segs wantedVersion).zip (segs actualVersion),
      parseSeg p.1 = parseSeg p.2) →
      CompareVersion actualVersion wantedVersion = some 0 :=
    fun hall => compareLoop_eq_zero _ _ (fun p hp => ⟨hall p hp, (h p hp).1⟩)
  refine ⟨?_, hone, hzero⟩
  by_cases hall : ∀ p ∈ (segs wantedVersion).zip (segs actualVersion),
      parseSeg p.1 = parseSeg p.2
  · exact Or.inl (hzero hall)
  · refine Or.inr (hone ?_)
    push_neg at hall
    obtain ⟨p, hp, hne⟩ := hall
    obtain ⟨h1, h2, h3⟩ := h p hp
    obtain ⟨wn, hwn⟩ := Option.isSome_iff_exists.mp h1
    obtain ⟨an, han⟩ := Option.isSome_iff_exists.mp h2
    refine ⟨p, hp, ?_⟩
    rw [hwn, han] at h3 hne ⊢
    simp only [Option.getD_some] at h3 ⊢
    exact lt_of_le_of_ne h3 (fun hc => hne (by rw [hc]))

theorem compareVersion_wanted_le_nonneg_witness :
    CompareVersion "1.5" "1.0" = some 1 ∧ CompareVersion "2.1" "2.1" = some 0 :=
  ⟨(compareVersion_wanted_le_nonneg "1.5" "1.0" (by decide)).2.1 (by decide),
   (compareVersion_wanted_le_nonneg "2.1" "2.1" (by decide)).2.2 (by decide)⟩

/-- Claim C2: for every pair of dot-separated version strings in which
each compared segment contains at least one digit character, if at the
first position within the common prefix where the numeric segment values
differ the wanted segment is strictly greater than the actual one, then
`CompareVersion(actual, wanted)` returns -1 ("needs newer"). -/
theorem compareVersion_first_gt_needs_newer (actualVersion wantedVersion : String)
    (ws₁ : List (List Char)) (w : List Char) (ws₂ : List (List Char))
    (as₁ : List (List Char)) (a : List Char) (as₂ : List (List Char))
    (hw : segs wantedVersion = ws₁ ++ w :: ws₂)
    (ha : segs actualVersion = as₁ ++ a :: as₂)
    (hlen : ws₁.length = as₁.length)
    (hpre : ∀ p ∈ ws₁.zip as₁, parseSeg p.1 = parseSeg p.2 ∧ (parseSeg p.1).isSome = true)
    (hws : (parseSeg w).isSome = true) (has : (parseSeg a).isSome = true)
    (hgt : (parseSeg a).getD 0 < (parseSeg w).getD 0) :
    CompareVersion actualVersion wantedVersion = some (-1) := by
  unfold CompareVersion
  rw [hw, ha]
  exact compareLoop_first_gt ws₁ w ws₂ as₁ a as₂ hlen hpre hws has hgt

theorem compareVersion_first_gt_needs_newer_witness :
    CompareVersion "1.2.1" "1.3" = some (-1) :=
  compareVersion_first_gt_needs_newer "1.2.1" "1.3"
    [['1']] ['3'] [] [['1']] ['2'] [['1']]
    (by decide) (by decide) (by decide) (by decide) (by decide) (by decide) (by decide)

/-- Claim C3: `CompareVersion` compares only the common prefix of the two
segment lists; whenever all compared segments are numerically equal (in
particular when one segment list is a prefix of the other and they agree
there) it returns 0 — so installed "1.2" satisfies required "1.2.0.1". -/
theorem compareVersion_common_prefix_zero (actualVersion wantedVersion : String)
    (h : ∀ p ∈ (segs wantedVersion).zip (segs actualVersion),
      parseSeg p.1 = parseSeg p.2 ∧ (parseSeg p.1).isSome = true) :
    CompareVersion actualVersion wantedVersion = some 0 :=
  compareLoop_eq_zero _ _ h

theorem compareVersion_common_prefix_zero_witness :
    CompareVersion "1.2" "1.2.0.1" = some 0 :=
  compareVersion_common_prefix_zero "1.2" "1.2.0.1" (by decide)

/-- Claim C4: `CompareVersion` ignores non-digit characters inside
segments — replacing every segment of both arguments by its digit-only
subsequence never changes the result (for arbitrary version strings,
including segments with no digits at all, where both sides error the same
way), and in particular "1.0a" behaves exactly like "1.0" on either
side. -/
theorem compareVersion_ignores_nondigits :
    (∀ actualVersion wantedVersion : String,
      CompareVersion (stripVersion actualVersion) (stripVersion wantedVersion) =
        CompareVersion actualVersion wantedVersion)
    ∧ (∀ x : String,
      CompareVersion "1.0a" x = CompareVersion "1.0" x ∧
      CompareVersion x "1.0a" = CompareVersion x "1.0") := by
  refine ⟨compareVersion_stripVersion, fun x => ⟨?_, ?_⟩⟩
  · have e : stripVersion "1.0a" = stripVersion "1.0" := by decide
    rw [← compareVersion_stripVersion "1.0a" x, e, compareVersion_stripVersion]
  · have e : stripVersion "1.0a" = stripVersion "1.0" := by decide
    rw [← compareVersion_stripVersion x "1.0a", e, compareVersion_stripVersion]

/-- Claim C10: on version strings whose compared segments all contain a
digit, `CompareVersion` is antisymmetric under swapping its two
arguments, and in particular returns 0 on identical arguments. -/
theorem compareVersion_antisymm (a b : String)
    (h : ∀ p ∈ (segs b).zip (segs a),
      (parseSeg p.1).isSome = true ∧ (parseSeg p.2).isSome = true) :
    (∃ r : Int, CompareVersion a b = some r ∧ CompareVersion b a = some (-r))
    ∧ (a = b → CompareVersion a b = some 0) := by
  obtain ⟨r, hr1, hr2⟩ := compareLoop_antisymm_aux (segs b) (segs a) h
  refine ⟨⟨r, hr1, hr2⟩, fun hab => ?_⟩
  subst hab
  have h0 : r = -r := Option.some.inj (hr1.symm.trans hr2)
  have hr0 : r = 0 := by omega
  rw [hr0] at hr1
  exact hr1

theorem compareVersion_antisymm_witness :
    ∃ r : Int, CompareVersion "1.2" "3" = some r ∧ CompareVersion "3" "1.2" = some (-r) :=
  (compareVersion_antisymm "1.2" "3" (by decide)).1

/-! ## Claims about the checkers, the driver and the installer -/

/-- The DLL checker leaves every descriptor field other than `exact` and
`version` unchanged, on every path. -/
lemma dllCheck_frame (dep : Dependency) (denv : DllEnv) :
    (DllDependency.Check dep denv).1.name = dep.name
    ∧ (DllDependency.Check dep denv).1.attr = dep.attr
    ∧ (DllDependency.Check dep denv).1.module = dep.module
    ∧ (DllDependency.Check dep denv).1.package = dep.package
    ∧ (DllDependency.Check dep denv).1.url = dep.url
    ∧ (DllDependency.Check dep denv).1.buildSetup = dep.buildSetup := by
  unfold DllDependency.Check
  cases hd : denv.manifestInfo with
  | none => simp
  | some info =>
    cases hpt : parseVerTuple info.2.1 with
    | none => simp [hpt]
    | some wv =>
      simp only [hpt]
      split
      · simp
      · split <;> simp

/-- Claim C5: whenever the backing component cannot be found (the module
fails to import, version file absent, tool path not located, no matching
side-by-side directory), every checker signals `MissingDependency` and
never `WrongVersion`; and every checker outcome is exactly one of
satisfied, `MissingDependency`, `WrongVersion`, or an uncaught fatal
error (the case the spec allows to propagate). -/
theorem checkers_missing_when_not_found (dep : Dependency) (env : Env)
    (info : String × String × String)
    (hmi : env.dll.manifestInfo = some info)
    (hpv : (parseVerTuple info.2.1).isSome = true)
    (hsx : env.dll.sxsFiles = []) :
    ModuleDependency.Check dep none = .missingDependency
    ∧ PyWin32Dependency.Check dep none = .missingDependency
    ∧ StacklessDependency.Check dep false env.pyVersionInfo = .missingDependency
    ∧ InnoSetupDependency.Check false = .missingDependency
    ∧ HtmlHelpWorkshopDependency.Check false = .missingDependency
    ∧ (DllDependency.Check dep env.dll).2 = .missingDependency
    ∧ (∀ d : Dependency,
        (runCheck env d).2 = .satisfied ∨
        (runCheck env d).2 = .missingDependency ∨
        (runCheck env d).2 = .wrongVersion ∨
        ∃ msg, (runCheck env d).2 = .fatal msg) := by
  refine ⟨rfl, rfl, rfl, rfl, rfl, ?_, ?_⟩
  · obtain ⟨wv, hwv⟩ := Option.isSome_iff_exists.mp hpv
    unfold DllDependency.Check
    simp [hmi, hwv, hsx]
  · intro d
    cases h : (runCheck env d).2 with
    | satisfied => exact Or.inl rfl
    | missingDependency => exact Or.inr (Or.inl rfl)
    | wrongVersion => exact Or.inr (Or.inr (Or.inl rfl))
    | fatal msg => exact Or.inr (Or.inr (Or.inr ⟨msg, rfl⟩))

theorem checkers_missing_when_not_found_witness :
    (DllDependency.Check vcredistDep envExample.dll).2 = CheckResult.missingDependency :=
  (checkers_missing_when_not_found vcredistDep envExample
    ("Microsoft.VC90.CRT", "9.0.21022.8", "x86") rfl (by decide) rfl).2.2.2.2.2.1

/-- Claim C6: when the check phase completes (no checker raised anything
other than `MissingDependency`/`WrongVersion`), the failure list contains
exactly the descriptors whose checker raised, in declaration order. -/
theorem checkPhase_failures_exact (env : Env) (buildSetup : BuildSetup)
    (deps : List Dependency)
    (h : ∀ d ∈ deps,
      isFatalResult (runCheck env { d with buildSetup := some buildSetup }).2 = false) :
    CheckDependenciesPhase1 env buildSetup deps =
      .ok (specFailedDeps env buildSetup deps) := by
  induction deps with
  | nil => rfl
  | cons d ds ih =>
    have hd := h d (List.mem_cons_self _ _)
    have ihds := ih (fun x hx => h x (List.mem_cons_of_mem _ hx))
    rcases hr : runCheck env { d with buildSetup := some buildSetup } with ⟨d', r⟩
    rw [hr] at hd
    simp only [CheckDependenciesPhase1, specFailedDeps, List.map_cons, List.filter_cons, hr]
    simp only [specFailedDeps] at ihds
    cases r with
    | fatal msg => simp [isFatalResult] at hd
    | satisfied => simp [ihds, isFailureResult]
    | missingDependency => simp [ihds, isFailureResult]
    | wrongVersion => simp [ihds, isFailureResult]

theorem checkPhase_failures_exact_witness :
    CheckDependenciesPhase1 envExample {} [innoSetupDep, htmlHelpWorkshopDep] =
      .ok (specFailedDeps envExample {} [innoSetupDep, htmlHelpWorkshopDep]) :=
  checkPhase_failures_exact envExample {} [innoSetupDep, htmlHelpWorkshopDep] (by decide)

/-- Claim C7: for a failed descriptor that is not the special-cased
"Stackless Python" and has neither a URL nor a package-manager package
name, the dispatcher selects the pip index path, pinning `name==version`
when `exact` is set and using the bare name otherwise. -/
theorem installDependency_index_path (arch32 : Bool) (dep : Dependency)
    (hname : dep.name ≠ "Stackless Python")
    (hurl : pyTruthy dep.url = false)
    (hpkg : pyTruthy dep.package = false) :
    (dep.exact = true → InstallDependency arch32 dep =
      .pipInstall (dep.name ++ "==" ++ dep.version))
    ∧ (dep.exact = false → InstallDependency arch32 dep = .pipInstall dep.name) := by
  unfold InstallDependency
  rw [if_neg hname, if_pos ⟨hurl, hpkg⟩]
  constructor
  · intro he
    rw [he]
    simp [String.append_assoc]
  · intro he
    rw [he]
    simp

theorem installDependency_index_path_witness :
    InstallDependency false
      { comtypesDep with exact := true } = .pipInstall "comtypes==1.1.2" :=
  (installDependency_index_path false { comtypesDep with exact := true }
    (by decide) (by decide) (by decide)).1 rfl

/-- Claim C8: for a failed descriptor that is not "Stackless Python" and
whose URL ends in ".whl", the dispatcher invokes the pip index installer
on that URL verbatim, regardless of any package name also present. -/
theorem installDependency_whl_url (arch32 : Bool) (dep : Dependency) (u : String)
    (hname : dep.name ≠ "Stackless Python")
    (hurl : dep.url = some u)
    (hwhl : pyEndsWith u ".whl" = true) :
    InstallDependency arch32 dep = .pipInstall u := by
  have hne : u ≠ "" := by
    intro h0
    rw [h0] at hwhl
    exact absurd hwhl (by decide)
  have htr : pyTruthy dep.url = true := by
    rw [hurl]
    simpa [pyTruthy] using hne
  unfold InstallDependency
  rw [if_neg hname,
    if_neg (fun hand : pyTruthy dep.url = false ∧ pyTruthy dep.package = false =>
      by rw [htr] at hand; exact absurd hand.1 (by simp)),
    if_pos ⟨htr, by rw [hurl]; exact hwhl⟩]
  simp [hurl]

theorem installDependency_whl_url_witness :
    InstallDependency false
      { pyCryptoDep with package := some "pycrypto" } =
      .pipInstall "https://eventghost.github.io/dist/dependencies/pycrypto-2.6.1-cp27-none-win32.whl" :=
  installDependency_whl_url false { pyCryptoDep with package := some "pycrypto" }
    "https://eventghost.github.io/dist/dependencies/pycrypto-2.6.1-cp27-none-win32.whl"
    (by decide) rfl (by decide)

/-- Claim C9, counterexample: `DllDependency.Check` mutates the
descriptor's `exact` and `version` fields (source lines 185–186), so the
descriptor is not immutable up to the `buildSetup` back-reference. -/
theorem dllCheck_mutates_descriptor :
    (DllDependency.Check vcredistDep dllEnvExample).1.exact ≠ vcredistDep.exact
    ∧ (DllDependency.Check vcredistDep dllEnvExample).1.version ≠ vcredistDep.version := by
  decide

/-- Claim C9 as amended: a run of `Check` leaves every descriptor field
unchanged — `buildSetup` included, the driver assigns that one outside
`Check` — except that the DLL checker sets `exact := true` and rewrites
`version` from the manifest; checkers of every other kind return the
descriptor untouched. -/
theorem check_mutation_frame (env : Env) (dep : Dependency) :
    (dep.kind ≠ DepKind.dll → (runCheck env dep).1 = dep)
    ∧ (runCheck env dep).1.name = dep.name
    ∧ (runCheck env dep).1.attr = dep.attr
    ∧ (runCheck env dep).1.module = dep.module
    ∧ (runCheck env dep).1.package = dep.package
    ∧ (runCheck env dep).1.url = dep.url
    ∧ (runCheck env dep).1.buildSetup = dep.buildSetup := by
  cases hk : dep.kind with
  | dll =>
    refine ⟨fun hne => absurd rfl hne, ?_⟩
    have hrc : runCheck env dep = DllDependency.Check dep env.dll := by
      unfold runCheck
      rw [hk]
    rw [hrc]
    exact dllCheck_frame dep env.dll
  | module =>
    have hrc : (runCheck env dep).1 = dep := by
      unfold runCheck
      rw [hk]
    exact ⟨fun _ => hrc, by rw [hrc], by rw [hrc], by rw [hrc], by rw [hrc], by rw [hrc],
      by rw [hrc]⟩
  | pywin32 =>
    have hrc : (runCheck env dep).1 = dep := by
      unfold runCheck
      rw [hk]
    exact ⟨fun _ => hrc, by rw [hrc], by rw [hrc], by rw [hrc], by rw [hrc], by rw [hrc],
      by rw [hrc]⟩
  | stackless =>
    have hrc : (runCheck env dep).1 = dep := by
      unfold runCheck
      rw [hk]
    exact ⟨fun _ => hrc, by rw [hrc], by rw [hrc], by rw [hrc], by rw [hrc], by rw [hrc],
      by rw [hrc]⟩
  | innoSetup =>
    have hrc : (runCheck env dep).1 = dep := by
      unfold runCheck
      rw [hk]
    exact ⟨fun _ => hrc, by rw [hrc], by rw [hrc], by rw [hrc], by rw [hrc], by rw [hrc],
      by rw [hrc]⟩
  | htmlHelp =>
    have hrc : (runCheck env dep).1 = dep := by
      unfold runCheck
      rw [hk]
    exact ⟨fun _ => hrc, by rw [hrc], by rw [hrc], by rw [hrc], by rw [hrc], by rw [hrc],
      by rw [hrc]⟩

theorem check_mutation_frame_witness :
    (runCheck envExample comtypesDep).1 = comtypesDep :=
  (check_mutation_frame envExample comtypesDep).1 (by decide)

end CheckDeps
